import Mathlib

/-!
Shallow embedding of the dlt-embeddings repository.

The embedded code is:
  - src/dlt_embeddings/sources/conversations_embeddings_source.py
    (extract_conversation_text and the embedding/serialization stage of
    load_conversations), modelled over a JSON-like value type with Python
    dictionary-access and truthiness semantics;
  - src/dlt_embeddings/query.py (VectorSearch.search_sync and
    VectorSearch.search_async), modelled as a relational evaluation of the
    constructed SQL query over a list of stored rows, with the pgvector
    distance operators kept abstract as parameters.
-/

/-- JSON-like values as produced by json.loads, with numbers as integers
(the numeric fields of the claims are passed through opaquely). -/
inductive JValue where
  | null : JValue
  | bool : Bool → JValue
  | num : Int → JValue
  | str : String → JValue
  | arr : List JValue → JValue
  | obj : List (String × JValue) → JValue
deriving Repr

/-- Python dictionaries that the source builds (message records). -/
abbrev PyDict := List (String × JValue)

/-- Python runtime errors the embedded code can raise. -/
inductive PyErr where
  | attributeError : PyErr
  | typeError : PyErr
  | keyError : PyErr
deriving DecidableEq, Repr

/-- Python truthiness of a JSON-decoded value. -/
def truthy : JValue → Bool
  | .null => false
  | .bool b => b
  | .num n => n != 0
  | .str s => s != ""
  | .arr xs => !xs.isEmpty
  | .obj fs => !fs.isEmpty

/-- Python dict.get with a default: returns the stored value (even if null)
when the key is present, the default otherwise; raises AttributeError when
the receiver is not a dictionary. -/
def pyGet (v : JValue) (key : String) (dfl : JValue) : Except PyErr JValue :=
  match v with
  | .obj fs => .ok ((fs.lookup key).getD dfl)
  | _ => .error .attributeError

/-- Python dict.items iteration; raises AttributeError on a non-dictionary. -/
def pyItems (v : JValue) : Except PyErr (List (String × JValue)) :=
  match v with
  | .obj fs => .ok fs
  | _ => .error .attributeError

/-- Python iteration over a value (for part in parts): lists yield their
elements, strings their characters, dictionaries their keys; other values
raise TypeError. -/
def pyIter (v : JValue) : Except PyErr (List JValue) :=
  match v with
  | .arr xs => .ok xs
  | .str s => .ok (s.toList.map (fun c => .str (String.singleton c)))
  | .obj fs => .ok (fs.map (fun p => .str p.1))
  | _ => .error .typeError

/-- Python sep.join over a list of strings. -/
def pyJoin (sep : String) : List String → String
  | [] => ""
  | [x] => x
  | x :: y :: xs => x ++ sep ++ pyJoin sep (y :: xs)

mutual

/-- Python repr applied to a JSON-decoded value (strings are quoted). -/
def pyRepr : JValue → String
  | .null => "None"
  | .bool true => "True"
  | .bool false => "False"
  | .num n => toString n
  | .str s => "\x27" ++ s ++ "\x27"
  | .arr xs => "[" ++ pyJoin ", " (pyReprList xs) ++ "]"
  | .obj fs => "\x7b" ++ pyJoin ", " (pyReprFields fs) ++ "\x7d"
termination_by structural v => v

/-- Helper for pyRepr on list elements. -/
def pyReprList : List JValue → List String
  | [] => []
  | x :: xs => pyRepr x :: pyReprList xs
termination_by structural l => l

/-- Helper for pyRepr on dictionary fields. -/
def pyReprFields : List (String × JValue) → List String
  | [] => []
  | (k, v) :: fs => ("\x27" ++ k ++ "\x27: " ++ pyRepr v) :: pyReprFields fs
termination_by structural l => l

end

/-- Python str applied to a JSON-decoded value: the string itself on strings,
the repr rendering elsewhere. -/
def pyStr : JValue → String
  | .str s => s
  | v => pyRepr v

/-- Python str.strip: leading and trailing whitespace removed (whitespace
modelled as the space, tab, carriage-return and line-feed characters). -/
def pyStrip (s : String) : String :=
  ⟨List.rdropWhile Char.isWhitespace (s.data.dropWhile Char.isWhitespace)⟩

/-- Embedding of the per-node body of the loop in extract_conversation_text
(src/dlt_embeddings/sources/conversations_embeddings_source.py, lines 28-58).
Returns none when the node is skipped by a continue, some record when a
message dictionary is appended, and an error when the Python code raises. -/
def extract_node (conversation : JValue) (node_id : String) (node : JValue) :
    Except PyErr (Option PyDict) :=
  match pyGet node "message" .null with
  | .error e => .error e
  | .ok message =>
    if !truthy message then .ok none else
    match pyGet message "content" (.obj []) with
    | .error e => .error e
    | .ok content =>
      if !truthy content then .ok none else
      match pyGet content "parts" (.arr []) with
      | .error e => .error e
      | .ok parts =>
        if !truthy parts then .ok none else
        match pyIter parts with
        | .error e => .error e
        | .ok partList =>
          let text := pyJoin " " ((partList.filter truthy).map pyStr)
          if text == "" || pyStrip text == "" then .ok none else
          match pyGet message "author" (.obj []) with
          | .error e => .error e
          | .ok author =>
            match pyGet author "role" (.str "unknown") with
            | .error e => .error e
            | .ok role =>
              match pyGet conversation "title" (.str "unknown") with
              | .error e => .error e
              | .ok title =>
                match pyGet message "id" (.str node_id) with
                | .error e => .error e
                | .ok mid =>
                  match pyGet message "create_time" .null with
                  | .error e => .error e
                  | .ok ct =>
                    match pyGet message "update_time" .null with
                    | .error e => .error e
                    | .ok ut =>
                      .ok (some
                        [("conversation_id", title),
                         ("message_id", mid),
                         ("role", role),
                         ("text", .str (pyStrip text)),
                         ("create_time", ct),
                         ("update_time", ut)])

/-- Embedding of the loop of extract_conversation_text over the mapping
items: messages of the surviving nodes in iteration order; a raised error
anywhere aborts the whole call with no result. -/
def extract_nodes (conversation : JValue) :
    List (String × JValue) → Except PyErr (List PyDict)
  | [] => .ok []
  | (nid, node) :: rest =>
    match extract_node conversation nid node with
    | .error e => .error e
    | .ok none => extract_nodes conversation rest
    | .ok (some m) =>
      match extract_nodes conversation rest with
      | .error e => .error e
      | .ok ms => .ok (m :: ms)

/-- Embedding of extract_conversation_text
(src/dlt_embeddings/sources/conversations_embeddings_source.py, lines 15-60). -/
def extract_conversation_text (conversation : JValue) :
    Except PyErr (List PyDict) :=
  match pyGet conversation "mapping" (.obj []) with
  | .error e => .error e
  | .ok mapping =>
    match pyItems mapping with
    | .error e => .error e
    | .ok items => extract_nodes conversation items

/-! Embedder/Batcher stage of load_conversations
(src/dlt_embeddings/sources/conversations_embeddings_source.py, lines 152-179). -/

/-- Python dict subscript access; raises KeyError when the key is absent. -/
def pyGetItem (d : PyDict) (k : String) : Except PyErr JValue :=
  match d.lookup k with
  | some v => .ok v
  | none => .error .keyError

/-- Python dict literal update as in a record built by splatting a message and
adding one key: the existing binding is replaced in place, otherwise the new
key is appended last. -/
def pyDictSet (d : PyDict) (k : String) (v : JValue) : PyDict :=
  if (d.lookup k).isSome then
    d.map (fun p => if p.1 == k then (k, v) else p)
  else d ++ [(k, v)]

/-- Fuel-driven worker for toBatches; the fuel is an upper bound on the list
length, so the fallback arm is never reached from toBatches. -/
def toBatchesAux (fuel : Nat) (n : Nat) : List α → List (List α) :=
  match fuel with
  | 0 => fun l => match l with
    | [] => []
    | l => [l]
  | fuel + 1 => fun l => match l with
    | [] => []
    | x :: xs =>
      if n = 0 then [x :: xs]
      else (x :: xs).take n :: toBatchesAux fuel n ((x :: xs).drop n)

/-- Chunking of a list into consecutive batches of size n (the last batch may
be shorter); a batch size of zero keeps the whole list as one batch. -/
def toBatches (n : Nat) (l : List α) : List (List α) :=
  toBatchesAux l.length n l

/-- Python list comprehension with exception propagation: the values of f on
the elements in order, or the first raised error. -/
def pyListComp (f : PyDict → Except PyErr JValue) :
    List PyDict → Except PyErr (List JValue)
  | [] => .ok []
  | m :: ms =>
    match f m with
    | .error e => .error e
    | .ok v =>
      match pyListComp f ms with
      | .error e => .error e
      | .ok vs => .ok (v :: vs)

/-- Modelled from the spec: model.encode of sentence_transformers is external
to this repository; section 4.2 of the spec describes it at the boundary as
feeding every text to the pure per-text embedding function, internally chunked
at batch_size, concatenating the per-chunk outputs in input order. -/
def model_encode (embed_fn : JValue → List ℚ) (batch_size : Nat)
    (texts : List JValue) : List (List ℚ) :=
  ((toBatches batch_size texts).map (fun b => b.map embed_fn)).flatten

/-- Embedding of the pgvector wire-format serialization
(src/dlt_embeddings/sources/conversations_embeddings_source.py, line 174):
an opening bracket, the component representations joined by commas, and a
closing bracket. The parameter fstr models the Python rendering str(float x)
of one component. -/
def serialize_embedding (fstr : ℚ → String) (e : List ℚ) : String :=
  "[" ++ pyJoin "," (e.map fstr) ++ "]"

/-- Embedding of the record-building tail of load_conversations
(src/dlt_embeddings/sources/conversations_embeddings_source.py, lines
152-179): on an empty message list nothing is yielded; otherwise the texts
are embedded and each message is yielded with the serialized vector attached
under the key embedding. -/
def load_conversations_records (fstr : ℚ → String) (embed_fn : JValue → List ℚ)
    (batch_size : Nat) (all_messages : List PyDict) : Except PyErr (List PyDict) :=
  if all_messages.isEmpty then .ok [] else
  match pyListComp (fun m => pyGetItem m "text") all_messages with
  | .error e => .error e
  | .ok texts =>
    .ok ((all_messages.zip (model_encode embed_fn batch_size texts)).map
      (fun p => pyDictSet p.1 "embedding" (.str (serialize_embedding fstr p.2))))

/-! Concrete inputs used below: the worked example of the spec (section 8)
and small malformed documents. -/

/-- Message object of the worked example of section 8 of the spec. -/
def exampleMessage : JValue :=
  .obj [("id", .str "m1"),
        ("author", .obj [("role", .str "user")]),
        ("content", .obj [("parts", .arr [.str "Hi", .str "there"])]),
        ("create_time", .num 100)]

/-- Node of the worked example. -/
def exampleNode : JValue := .obj [("message", exampleMessage)]

/-- Conversation document of the worked example. -/
def exampleConversation : JValue :=
  .obj [("title", .str "T"), ("mapping", .obj [("n1", exampleNode)])]

/-- Record the worked example extracts. -/
def exampleEmitted : PyDict :=
  [("conversation_id", .str "T"),
   ("message_id", .str "m1"),
   ("role", .str "user"),
   ("text", .str "Hi there"),
   ("create_time", .num 100),
   ("update_time", .null)]

/-- Parts list with a middle falsy (empty-string) part. -/
def partsWithEmptyPart : List JValue := [.str "a", .str "", .str "b"]

/-- Node whose message content has a falsy middle part. -/
def nodeWithEmptyPart : JValue :=
  .obj [("message", .obj [("content",
    .obj [("parts", .arr partsWithEmptyPart)])])]

/-- Conversation document holding only nodeWithEmptyPart. -/
def convWithEmptyPart : JValue :=
  .obj [("mapping", .obj [("n1", nodeWithEmptyPart)])]

/-- Record extracted from nodeWithEmptyPart. -/
def emittedWithEmptyPart : PyDict :=
  [("conversation_id", .str "unknown"),
   ("message_id", .str "n1"),
   ("role", .str "unknown"),
   ("text", .str "a b"),
   ("create_time", .null),
   ("update_time", .null)]

/-- Spec-side predicate: a well-shaped node that lacks the expected
message/content/parts structure, that is, its message entry is absent or
falsy, or the content of its message is absent or falsy, or the parts of
that content are absent or empty. -/
def lacksMessageStructure (node : JValue) : Bool :=
  match node with
  | .obj fs =>
    match (fs.lookup "message").getD .null with
    | .obj mfs =>
      if !truthy (.obj mfs) then true
      else
        match (mfs.lookup "content").getD (.obj []) with
        | .obj cfs =>
          if !truthy (.obj cfs) then true
          else !truthy ((cfs.lookup "parts").getD (.arr []))
        | c => !truthy c
    | m => !truthy m
  | _ => false

/-- Malformed node whose message entry is a bare truthy string instead of the
expected mapping. -/
def nodeWithStringMessage : JValue := .obj [("message", .str "hi")]

/-- Conversation document holding only nodeWithStringMessage. -/
def convWithStringMessage : JValue :=
  .obj [("mapping", .obj [("n1", nodeWithStringMessage)])]

/-- Conversation document with no mapping key at all. -/
def convNoMapping : JValue := .obj [("title", .str "T")]

/-! Vector similarity search (src/dlt_embeddings/query.py). The stored table
is a list of rows of the Conversation model (src/dlt_embeddings/models.py);
the pgvector distance operators are database-provided and kept abstract as
parameters. -/

/-- Embedding of the Conversation ORM model (src/dlt_embeddings/models.py):
message_id is the primary key; embedding is a nullable vector. -/
structure Row where
  message_id : String
  conversation_id : String
  role : String
  text : String
  embedding : Option (List ℚ)
  create_time : Option ℚ
  update_time : Option ℚ
deriving DecidableEq, Repr

/-- Database-provided pgvector distance operators, kept abstract. -/
structure DistanceOps where
  cosine_distance : List ℚ → List ℚ → ℚ
  l2_distance : List ℚ → List ℚ → ℚ
  max_inner_product : List ℚ → List ℚ → ℚ

/-- Python truthiness of an optional string argument. -/
def optTruthy : Option String → Bool
  | none => false
  | some s => s != ""

/-- Relational where-clause on role (query.py: if role_filter then
where(Conversation.role == role_filter)). -/
def whereRole (rf : Option String) (rows : List Row) : List Row :=
  if optTruthy rf then rows.filter (fun r => some r.role == rf) else rows

/-- Relational where-clause on conversation_id (query.py: if
conversation_id_filter then where(Conversation.conversation_id == it)). -/
def whereConv (cf : Option String) (rows : List Row) : List Row :=
  if optTruthy cf then rows.filter (fun r => some r.conversation_id == cf) else rows

/-- Embedding of the three-way metric dispatch of search_sync and search_async
(query.py, lines 79-93 and 168-177): the similarity expression per metric, or
the ValueError raised on an unknown metric. -/
def similarity_fn (ops : DistanceOps) (distance_metric : String)
    (query_embedding : List ℚ) : Except String (List ℚ → ℚ) :=
  if distance_metric == "cosine" then
    .ok (fun e => 1 - ops.cosine_distance e query_embedding)
  else if distance_metric == "l2" then
    .ok (fun e => -(ops.l2_distance e query_embedding))
  else if distance_metric == "inner_product" then
    .ok (fun e => ops.max_inner_product e query_embedding)
  else .error ("Unknown distance metric: " ++ distance_metric)

/-- Relational evaluation of the subquery (query.py, lines 96-107): rows with
a non-null embedding, the optional filters applied, projected to message_id
and the computed similarity. -/
def subqueryRows (simf : List ℚ → ℚ) (rf cf : Option String)
    (rows : List Row) : List (String × ℚ) :=
  (whereConv cf (whereRole rf (rows.filter (fun r => r.embedding.isSome)))).map
    (fun r => (r.message_id, simf (r.embedding.getD [])))

/-- Relational inner join of the stored table with the subquery on equal
message_id (query.py, line 112). -/
def joinRows (rows : List Row) (sub : List (String × ℚ)) : List (Row × ℚ) :=
  rows.flatMap (fun r =>
    (sub.filter (fun p => p.1 == r.message_id)).map (fun p => (r, p.2)))

/-- Insertion step of the order-by-similarity-descending evaluation. -/
def insertDesc (x : Row × ℚ) : List (Row × ℚ) → List (Row × ℚ)
  | [] => [x]
  | y :: ys => if y.2 < x.2 then x :: y :: ys else y :: insertDesc x ys

/-- Deterministic evaluation of ORDER BY similarity DESC (query.py, line 114),
as an insertion sort by descending similarity. -/
def sortDesc : List (Row × ℚ) → List (Row × ℚ)
  | [] => []
  | x :: xs => insertDesc x (sortDesc xs)

/-- Embedding of VectorSearch.search_sync (query.py, lines 42-129): metric
dispatch, subquery over rows with stored embeddings, join on message_id,
threshold filter, descending sort, limit. The query embedding produced by
encode_query is passed in directly. -/
def search_sync (ops : DistanceOps) (rows : List Row) (query_embedding : List ℚ)
    (limit : Nat) (similarity_threshold : ℚ)
    (role_filter conversation_id_filter : Option String)
    (distance_metric : String) : Except String (List (Row × ℚ)) :=
  match similarity_fn ops distance_metric query_embedding with
  | .error e => .error e
  | .ok simf =>
    let sub := subqueryRows simf role_filter conversation_id_filter rows
    let joined := joinRows rows sub
    let kept := joined.filter (fun p => similarity_threshold ≤ p.2)
    .ok ((sortDesc kept).take limit)

/-- Embedding of VectorSearch.search_async (query.py, lines 131-214), which
repeats the query construction of search_sync verbatim around an awaited
execution. -/
def search_async (ops : DistanceOps) (rows : List Row) (query_embedding : List ℚ)
    (limit : Nat) (similarity_threshold : ℚ)
    (role_filter conversation_id_filter : Option String)
    (distance_metric : String) : Except String (List (Row × ℚ)) :=
  match similarity_fn ops distance_metric query_embedding with
  | .error e => .error e
  | .ok simf =>
    let sub := subqueryRows simf role_filter conversation_id_filter rows
    let joined := joinRows rows sub
    let kept := joined.filter (fun p => similarity_threshold ≤ p.2)
    .ok ((sortDesc kept).take limit)

/-- Combined pass condition of the subquery: a stored embedding, and the two
optional exact-match filters when they are truthy. -/
def rowPasses (rf cf : Option String) (r : Row) : Bool :=
  r.embedding.isSome
    && (!optTruthy rf || some r.role == rf)
    && (!optTruthy cf || some r.conversation_id == cf)

/-- Distance operators that score every pair at zero, for concrete
instantiations. -/
def zeroOps : DistanceOps :=
  { cosine_distance := fun _ _ => 0
    l2_distance := fun _ _ => 0
    max_inner_product := fun _ _ => 0 }

/-- Stored row of the worked example with a one-component embedding. -/
def exampleRow : Row :=
  { message_id := "m1"
    conversation_id := "T"
    role := "user"
    text := "Hi there"
    embedding := some [1]
    create_time := none
    update_time := none }

/-! Claim C2. -/

/-- C2 counterexample: on a node whose parts are the strings a, the empty
string, and b, the emitted text is the join of the truthy parts only
(a single space between a and b), not the join of all parts (which keeps two
spaces), so the claim as stated fails at this input. -/
theorem C2_counterexample :
    extract_node convWithEmptyPart "n1" nodeWithEmptyPart
      = .ok (some emittedWithEmptyPart) ∧
    emittedWithEmptyPart.lookup "text" = some (.str "a b") ∧
    pyIter (.arr partsWithEmptyPart) = .ok partsWithEmptyPart ∧
    pyStrip (pyJoin " " (partsWithEmptyPart.map pyStr)) = "a  b" ∧
    ("a b" : String) ≠ "a  b" :=
  ⟨rfl, rfl, rfl, by decide, by decide⟩

/-- C2 (amended): for every conversation node that passes the skip checks and
is emitted as a message record, the emitted text equals the string
representations of the truthy content parts of that node joined by a single
space, with leading and trailing whitespace removed. -/
theorem C2_text_is_join_of_truthy_parts
    (conversation node : JValue) (node_id : String) (m : PyDict)
    (message content parts : JValue) (ps : List JValue)
    (hmsg : pyGet node "message" .null = .ok message)
    (hcont : pyGet message "content" (.obj []) = .ok content)
    (hparts : pyGet content "parts" (.arr []) = .ok parts)
    (hiter : pyIter parts = .ok ps)
    (hout : extract_node conversation node_id node = .ok (some m)) :
    m.lookup "text"
      = some (.str (pyStrip (pyJoin " " ((ps.filter truthy).map pyStr)))) := by
  simp only [extract_node, hmsg] at hout
  split at hout
  · exact absurd hout (by simp)
  simp only [hcont] at hout
  split at hout
  · exact absurd hout (by simp)
  simp only [hparts] at hout
  split at hout
  · exact absurd hout (by simp)
  simp only [hiter] at hout
  split at hout
  · exact absurd hout (by simp)
  split at hout
  · exact absurd hout (by simp)
  split at hout
  · exact absurd hout (by simp)
  split at hout
  · exact absurd hout (by simp)
  split at hout
  · exact absurd hout (by simp)
  split at hout
  · exact absurd hout (by simp)
  split at hout
  · exact absurd hout (by simp)
  simp only [Except.ok.injEq, Option.some.injEq] at hout
  subst hout
  simp [List.lookup]


/-- C2 witness: the amended text law applied at the worked example of
section 8 of the spec. -/
theorem C2_text_witness :
    exampleEmitted.lookup "text"
      = some (.str (pyStrip (pyJoin " "
          ((([JValue.str "Hi", JValue.str "there"]).filter truthy).map pyStr)))) :=
  C2_text_is_join_of_truthy_parts exampleConversation exampleNode "n1"
    exampleEmitted exampleMessage
    (.obj [("parts", .arr [.str "Hi", .str "there"])])
    (.arr [.str "Hi", .str "there"])
    [.str "Hi", .str "there"]
    rfl rfl rfl rfl rfl

/-! Claim C3. -/

/-- Helper: a node that lacks the expected message/content/parts structure is
skipped by a continue, with no error. -/
theorem extract_node_ok_none_of_lacks (conversation : JValue) (node_id : String)
    (node : JValue) (h : lacksMessageStructure node = true) :
    extract_node conversation node_id node = .ok none := by
  cases node with
  | null => simp [lacksMessageStructure] at h
  | bool b => simp [lacksMessageStructure] at h
  | num n => simp [lacksMessageStructure] at h
  | str s => simp [lacksMessageStructure] at h
  | arr xs => simp [lacksMessageStructure] at h
  | obj fs =>
    simp only [lacksMessageStructure] at h
    simp only [extract_node, pyGet]
    cases hm : (fs.lookup "message").getD .null with
    | obj mfs =>
      rw [hm] at h
      by_cases hmt : truthy (.obj mfs)
      case neg => simp [hmt]
      case pos =>
        simp only [hmt, Bool.not_true, Bool.false_eq_true, if_false] at h
        simp only [hmt, Bool.not_true, Bool.false_eq_true, if_false]
        cases hc : (mfs.lookup "content").getD (.obj []) with
        | obj cfs =>
          rw [hc] at h
          by_cases hct : truthy (.obj cfs)
          case neg => simp [hct]
          case pos =>
            simp only [hct, Bool.not_true, Bool.false_eq_true, if_false] at h
            simp only [hct, Bool.not_true, Bool.false_eq_true, if_false]
            simp [h]
        | null => rw [hc] at h; simp [truthy] at h ⊢
        | bool b => rw [hc] at h; simp [truthy] at h ⊢; simp [h]
        | num n => rw [hc] at h; simp [truthy] at h ⊢; simp [h]
        | str s => rw [hc] at h; simp [truthy] at h ⊢; simp [h]
        | arr xs => rw [hc] at h; simp [truthy] at h ⊢; simp [h]
    | null => rw [hm] at h; simp [truthy] at h ⊢
    | bool b => rw [hm] at h; simp [truthy] at h ⊢; simp [h]
    | num n => rw [hm] at h; simp [truthy] at h ⊢; simp [h]
    | str s => rw [hm] at h; simp [truthy] at h ⊢; simp [h]
    | arr xs => rw [hm] at h; simp [truthy] at h ⊢; simp [h]

/-- C3 counterexample: on a conversation whose only node is malformed by
holding a bare string under its message key, the extraction raises an
AttributeError instead of dropping the node, so the claim as stated fails
at this input. -/
theorem C3_counterexample :
    extract_conversation_text convWithStringMessage
      = .error .attributeError := rfl

/-- C3 (amended): a node whose message entry is absent or falsy, whose
message content is absent or falsy, or whose content parts are absent or
empty, is dropped from the output without an error, and removing such a node
from the mapping leaves the extraction result of the remaining nodes
unchanged; a node that is malformed in other ways (such as a truthy
non-dictionary message) instead raises an error. -/
theorem C3_structureless_nodes_dropped (conversation : JValue)
    (node_id : String) (node : JValue)
    (h : lacksMessageStructure node = true) :
    extract_node conversation node_id node = .ok none ∧
    ∀ pre post : List (String × JValue),
      extract_nodes conversation (pre ++ (node_id, node) :: post)
        = extract_nodes conversation (pre ++ post) := by
  have hnone := extract_node_ok_none_of_lacks conversation node_id node h
  refine ⟨hnone, ?_⟩
  intro pre post
  induction pre with
  | nil => simp [extract_nodes, hnone]
  | cons q pre ih =>
    obtain ⟨nid, nd⟩ := q
    simp only [List.cons_append, extract_nodes]
    cases hx : extract_node conversation nid nd with
    | error e => rfl
    | ok o =>
      cases o with
      | none => exact ih
      | some m =>
        simp only [List.append_eq] at ih ⊢
        rw [ih]

/-- C3 witness: the amended statement at a concrete mapping holding the
worked example node and an empty node. -/
theorem C3_structureless_witness :
    extract_node exampleConversation "n2" (.obj []) = .ok none ∧
    extract_nodes exampleConversation
        ([("n1", exampleNode)] ++ ("n2", (.obj [] : JValue)) :: [])
      = extract_nodes exampleConversation ([("n1", exampleNode)] ++ []) :=
  ⟨(C3_structureless_nodes_dropped exampleConversation "n2" (.obj []) rfl).1,
   (C3_structureless_nodes_dropped exampleConversation "n2" (.obj []) rfl).2
     [("n1", exampleNode)] []⟩

/-! Helper lemmas on stripping, joining, and inversion of extract_node. -/

/-- Helper: stripping is idempotent. -/
theorem pyStrip_idem (s : String) : pyStrip (pyStrip s) = pyStrip s := by
  unfold pyStrip
  congr 1
  set M := s.data.dropWhile Char.isWhitespace with hM
  have hMM : M.dropWhile Char.isWhitespace = M := by
    rw [hM]; exact List.dropWhile_idempotent _ _
  obtain ⟨t, ht⟩ : ∃ t, M = List.rdropWhile Char.isWhitespace M ++ t := by
    obtain ⟨t, ht⟩ := List.dropWhile_suffix (l := M.reverse) Char.isWhitespace
    refine ⟨t.reverse, ?_⟩
    have h2 := congrArg List.reverse ht
    simpa [List.rdropWhile] using h2.symm
  have hL : (List.rdropWhile Char.isWhitespace M).dropWhile Char.isWhitespace
      = List.rdropWhile Char.isWhitespace M := by
    cases hcase : List.rdropWhile Char.isWhitespace M with
    | nil => simp
    | cons a L2 =>
      rw [hcase] at ht
      have hwa : Char.isWhitespace a = false := by
        by_contra hcon
        have hwa2 : Char.isWhitespace a = true := by
          cases hx : Char.isWhitespace a
          · exact absurd hx hcon
          · rfl
        rw [ht] at hMM
        simp only [List.cons_append, List.dropWhile_cons, hwa2, if_true] at hMM
        have hlen := congrArg List.length hMM
        have hle :=
          (List.dropWhile_sublist (l := L2 ++ t) Char.isWhitespace).length_le
        rw [List.length_cons] at hlen
        omega
      simp [List.dropWhile_cons, hwa]
  rw [hL]
  exact List.rdropWhile_idempotent _ _

/-- Helper: the strip of a string is empty exactly when every character is
whitespace. -/
theorem pyStrip_eq_empty_iff (s : String) :
    pyStrip s = "" ↔ ∀ c ∈ s.data, Char.isWhitespace c := by
  unfold pyStrip
  constructor
  · intro h c hc
    have hnil : List.rdropWhile Char.isWhitespace
        (s.data.dropWhile Char.isWhitespace) = [] := congrArg String.data h
    have hall := List.rdropWhile_eq_nil_iff.mp hnil
    rw [← List.takeWhile_append_dropWhile (p := Char.isWhitespace) (l := s.data)]
      at hc
    rcases List.mem_append.mp hc with hc | hc
    · exact List.mem_takeWhile_imp hc
    · exact hall c hc
  · intro h
    have hnil : s.data.dropWhile Char.isWhitespace = [] :=
      List.dropWhile_eq_nil_iff.mpr (fun c hc => h c hc)
    rw [hnil]
    rfl

/-- Helper: a character of a join comes from the separator or from one of the
joined strings. -/
theorem mem_data_pyJoin {c : Char} {sep : String} {l : List String}
    (h : c ∈ (pyJoin sep l).data) : c ∈ sep.data ∨ ∃ s ∈ l, c ∈ s.data := by
  induction l with
  | nil => simp [pyJoin] at h
  | cons x xs ih =>
    cases xs with
    | nil => right; exact ⟨x, by simp, h⟩
    | cons y ys =>
      simp only [pyJoin, String.data_append, List.mem_append] at h
      rcases h with (h | h) | h
      · right; exact ⟨x, by simp, h⟩
      · left; exact h
      · rcases ih h with h2 | ⟨s, hs, hcs⟩
        · left; exact h2
        · right; exact ⟨s, by simp [hs], hcs⟩

/-- Helper: inversion of a successful node extraction — the dictionary gets
that led to the record, the truthiness checks passed, and the exact shape of
the appended record. -/
theorem extract_node_some_inv (conversation : JValue) (node_id : String)
    (node : JValue) (m : PyDict)
    (hout : extract_node conversation node_id node = .ok (some m)) :
    ∃ message content parts ps author role title mid ct ut,
      pyGet node "message" .null = .ok message ∧
      truthy message = true ∧
      pyGet message "content" (.obj []) = .ok content ∧
      truthy content = true ∧
      pyGet content "parts" (.arr []) = .ok parts ∧
      truthy parts = true ∧
      pyIter parts = .ok ps ∧
      pyStrip (pyJoin " " ((ps.filter truthy).map pyStr)) ≠ "" ∧
      pyGet message "author" (.obj []) = .ok author ∧
      pyGet author "role" (.str "unknown") = .ok role ∧
      pyGet conversation "title" (.str "unknown") = .ok title ∧
      pyGet message "id" (.str node_id) = .ok mid ∧
      pyGet message "create_time" .null = .ok ct ∧
      pyGet message "update_time" .null = .ok ut ∧
      m = [("conversation_id", title),
           ("message_id", mid),
           ("role", role),
           ("text", .str (pyStrip (pyJoin " " ((ps.filter truthy).map pyStr)))),
           ("create_time", ct),
           ("update_time", ut)] := by
  cases h1 : pyGet node "message" .null with
  | error e => simp [extract_node, h1] at hout
  | ok message =>
  cases h2 : truthy message with
  | false => simp [extract_node, h1, h2] at hout
  | true =>
  cases h3 : pyGet message "content" (.obj []) with
  | error e => simp [extract_node, h1, h2, h3] at hout
  | ok content =>
  cases h4 : truthy content with
  | false => simp [extract_node, h1, h2, h3, h4] at hout
  | true =>
  cases h5 : pyGet content "parts" (.arr []) with
  | error e => simp [extract_node, h1, h2, h3, h4, h5] at hout
  | ok parts =>
  cases h6 : truthy parts with
  | false => simp [extract_node, h1, h2, h3, h4, h5, h6] at hout
  | true =>
  cases h7 : pyIter parts with
  | error e => simp [extract_node, h1, h2, h3, h4, h5, h6, h7] at hout
  | ok ps =>
  by_cases h8 : (pyJoin " " ((ps.filter truthy).map pyStr) == ""
      || pyStrip (pyJoin " " ((ps.filter truthy).map pyStr)) == "") = true
  · simp [extract_node, h1, h2, h3, h4, h5, h6, h7, h8] at hout
  cases h9 : pyGet message "author" (.obj []) with
  | error e => simp [extract_node, h1, h2, h3, h4, h5, h6, h7, h8, h9] at hout
  | ok author =>
  cases h10 : pyGet author "role" (.str "unknown") with
  | error e =>
    simp [extract_node, h1, h2, h3, h4, h5, h6, h7, h8, h9, h10] at hout
  | ok role =>
  cases h11 : pyGet conversation "title" (.str "unknown") with
  | error e =>
    simp [extract_node, h1, h2, h3, h4, h5, h6, h7, h8, h9, h10, h11] at hout
  | ok title =>
  cases h12 : pyGet message "id" (.str node_id) with
  | error e =>
    simp [extract_node, h1, h2, h3, h4, h5, h6, h7, h8, h9, h10, h11, h12]
      at hout
  | ok mid =>
  cases h13 : pyGet message "create_time" .null with
  | error e =>
    simp [extract_node, h1, h2, h3, h4, h5, h6, h7, h8, h9, h10, h11, h12, h13]
      at hout
  | ok ct =>
  cases h14 : pyGet message "update_time" .null with
  | error e =>
    simp [extract_node, h1, h2, h3, h4, h5, h6, h7, h8, h9, h10, h11, h12, h13,
      h14] at hout
  | ok ut =>
  have hm : [("conversation_id", title),
      ("message_id", mid),
      ("role", role),
      ("text", JValue.str (pyStrip (pyJoin " " ((ps.filter truthy).map pyStr)))),
      ("create_time", ct),
      ("update_time", ut)] = m := by
    simpa [extract_node, h1, h2, h3, h4, h5, h6, h7, h8, h9, h10, h11, h12, h13,
      h14] using hout
  have h8b : pyStrip (pyJoin " " ((ps.filter truthy).map pyStr)) ≠ "" := by
    simp only [Bool.or_eq_true, beq_iff_eq, not_or] at h8
    exact h8.2
  exact ⟨message, content, parts, ps, author, role, title, mid, ct, ut,
    rfl, h2, h3, h4, h5, h6, h7, h8b, h9, h10, rfl, h12, h13, h14, hm.symm⟩

/-- Helper: every record of a successful walk comes from a successful node
extraction of one of the items. -/
theorem mem_extract_nodes (conversation : JValue)
    (items : List (String × JValue)) (msgs : List PyDict) (m : PyDict)
    (hok : extract_nodes conversation items = .ok msgs) (hm : m ∈ msgs) :
    ∃ nid node, (nid, node) ∈ items ∧
      extract_node conversation nid node = .ok (some m) := by
  induction items generalizing msgs with
  | nil =>
    simp only [extract_nodes, Except.ok.injEq] at hok
    subst hok
    simp at hm
  | cons q rest ih =>
    obtain ⟨nid, node⟩ := q
    simp only [extract_nodes] at hok
    cases hx : extract_node conversation nid node with
    | error e => rw [hx] at hok; exact absurd hok (by simp)
    | ok o =>
      rw [hx] at hok
      cases o with
      | none =>
        obtain ⟨nid2, node2, hmem, hex⟩ := ih msgs hok hm
        exact ⟨nid2, node2, by simp [hmem], hex⟩
      | some m2 =>
        cases hr : extract_nodes conversation rest with
        | error e => rw [hr] at hok; exact absurd hok (by simp)
        | ok ms =>
          rw [hr] at hok
          simp only [Except.ok.injEq] at hok
          subst hok
          rcases List.mem_cons.mp hm with hmeq | hmem
          · subst hmeq; exact ⟨nid, node, by simp, hx⟩
          · obtain ⟨nid2, node2, hmem2, hex⟩ := ih ms hr hmem
            exact ⟨nid2, node2, by simp [hmem2], hex⟩

/-! Claim C4. -/

/-- C4: every emitted record has a non-empty, already-stripped text that came
from at least one truthy part with a non-whitespace character; a node lacking
the message/content/parts structure contributes no record; and a conversation
with an empty or absent mapping extracts to the empty sequence. -/
theorem C4_emitted_text_nonempty (conversation : JValue) :
    (∀ msgs, extract_conversation_text conversation = .ok msgs →
      ∀ m ∈ msgs, ∃ t : String,
        m.lookup "text" = some (.str t) ∧ t ≠ "" ∧ pyStrip t = t) ∧
    (∀ node_id node m message content parts ps,
      pyGet node "message" .null = .ok message →
      pyGet message "content" (.obj []) = .ok content →
      pyGet content "parts" (.arr []) = .ok parts →
      pyIter parts = .ok ps →
      extract_node conversation node_id node = .ok (some m) →
      ∃ p ∈ ps, truthy p = true ∧ pyStrip (pyStr p) ≠ "") ∧
    (∀ node_id node, lacksMessageStructure node = true →
      extract_node conversation node_id node = .ok none) ∧
    (pyGet conversation "mapping" (.obj []) = .ok (.obj []) →
      extract_conversation_text conversation = .ok []) := by
  refine ⟨?_, ?_, ?_, ?_⟩
  · intro msgs hok m hm
    have hnode : ∃ nid node, (nid, node) ∈ (match pyGet conversation "mapping" (.obj []) with
        | .error _ => []
        | .ok mapping => match pyItems mapping with
          | .error _ => []
          | .ok items => items) ∧
        extract_node conversation nid node = .ok (some m) := by
      unfold extract_conversation_text at hok
      cases hmap : pyGet conversation "mapping" (.obj []) with
      | error e => simp only [hmap] at hok; exact absurd hok (by simp)
      | ok mapping =>
        simp only [hmap] at hok
        cases hit : pyItems mapping with
        | error e => simp only [hit] at hok; exact absurd hok (by simp)
        | ok items =>
          simp only [hit] at hok
          obtain ⟨nid, node, hmem, hex⟩ :=
            mem_extract_nodes conversation items msgs m hok hm
          exact ⟨nid, node, by simp only [hmap, hit]; exact hmem, hex⟩
    obtain ⟨nid, node, _, hex⟩ := hnode
    obtain ⟨_, _, _, ps, _, _, _, _, _, _, _, _, _, _, _, _, _, hne, _, _, _,
      _, _, _, hmeq⟩ := extract_node_some_inv conversation nid node m hex
    subst hmeq
    refine ⟨pyStrip (pyJoin " " ((ps.filter truthy).map pyStr)), ?_, hne, ?_⟩
    · simp [List.lookup]
    · exact pyStrip_idem _
  · intro node_id node m message content parts ps hmsg hcont hparts hiter hout
    obtain ⟨message2, content2, parts2, ps2, _, _, _, _, _, _, hmsg2, _, hcont2,
      _, hparts2, _, hiter2, hne, _⟩ :=
      extract_node_some_inv conversation node_id node m hout
    rw [hmsg] at hmsg2
    injection hmsg2 with hmeq
    subst hmeq
    rw [hcont] at hcont2
    injection hcont2 with hceq
    subst hceq
    rw [hparts] at hparts2
    injection hparts2 with hpeq
    subst hpeq
    rw [hiter] at hiter2
    injection hiter2 with hpseq
    subst hpseq
    have hex : ∃ c ∈ (pyJoin " " ((ps.filter truthy).map pyStr)).data,
        ¬ Char.isWhitespace c := by
      by_contra hcon
      push_neg at hcon
      exact hne ((pyStrip_eq_empty_iff _).mpr (by simpa using hcon))
    obtain ⟨c, hcmem, hcw⟩ := hex
    rcases mem_data_pyJoin hcmem with hsep | ⟨s, hsmem, hcs⟩
    · have hc : c = ' ' := by
        simpa [show (" " : String).data = [' '] from rfl] using hsep
      subst hc
      exact absurd (by decide) hcw
    · obtain ⟨p, hpmem, hps⟩ := List.mem_map.mp hsmem
      have hptruthy := List.mem_filter.mp hpmem
      refine ⟨p, hptruthy.1, hptruthy.2, ?_⟩
      intro hstrip
      have hall := (pyStrip_eq_empty_iff (pyStr p)).mp hstrip
      exact hcw (hall c (by rw [hps]; exact hcs))
  · intro node_id node h
    exact extract_node_ok_none_of_lacks conversation node_id node h
  · intro hmap
    unfold extract_conversation_text
    rw [hmap]
    rfl

/-- C4 witness: the first and the last conjunct applied at the worked example
and at a document without a mapping key. -/
theorem C4_witness :
    (∃ t : String,
      exampleEmitted.lookup "text" = some (.str t) ∧ t ≠ "" ∧ pyStrip t = t) ∧
    extract_conversation_text convNoMapping = .ok [] :=
  ⟨(C4_emitted_text_nonempty exampleConversation).1 [exampleEmitted] rfl
      exampleEmitted (by simp),
   (C4_emitted_text_nonempty convNoMapping).2.2.2 rfl⟩

/-! Claim C6. -/

/-- C6: an emitted record carries metadata equal to the Python dict.get
results of the source: conversation_id is the document title with default
unknown, message_id is the message id with the node key as default, role is
the author role with default unknown (the author itself defaulting to an
empty dictionary), and the two timestamps are passed through with default
null. -/
theorem C6_metadata_fields (conversation node message author : JValue)
    (node_id : String) (m : PyDict) (title mid role ct ut : JValue)
    (hmsg : pyGet node "message" .null = .ok message)
    (hauthor : pyGet message "author" (.obj []) = .ok author)
    (htitle : pyGet conversation "title" (.str "unknown") = .ok title)
    (hid : pyGet message "id" (.str node_id) = .ok mid)
    (hrole : pyGet author "role" (.str "unknown") = .ok role)
    (hct : pyGet message "create_time" .null = .ok ct)
    (hut : pyGet message "update_time" .null = .ok ut)
    (hout : extract_node conversation node_id node = .ok (some m)) :
    m.lookup "conversation_id" = some title ∧
    m.lookup "message_id" = some mid ∧
    m.lookup "role" = some role ∧
    m.lookup "create_time" = some ct ∧
    m.lookup "update_time" = some ut := by
  obtain ⟨message2, _, _, _, author2, role2, title2, mid2, ct2, ut2, hmsg2, _,
    _, _, _, _, _, _, hauthor2, hrole2, htitle2, hid2, hct2, hut2, hmeq⟩ :=
    extract_node_some_inv conversation node_id node m hout
  rw [hmsg] at hmsg2; injection hmsg2 with h; subst h
  rw [hauthor] at hauthor2; injection hauthor2 with h; subst h
  rw [hrole] at hrole2; injection hrole2 with h; subst h
  rw [htitle] at htitle2; injection htitle2 with h; subst h
  rw [hid] at hid2; injection hid2 with h; subst h
  rw [hct] at hct2; injection hct2 with h; subst h
  rw [hut] at hut2; injection hut2 with h; subst h
  subst hmeq
  refine ⟨?_, ?_, ?_, ?_, ?_⟩ <;> simp [List.lookup]

/-- C6 witness: the metadata law applied at the worked example of the spec. -/
theorem C6_metadata_witness :
    exampleEmitted.lookup "conversation_id" = some (.str "T") ∧
    exampleEmitted.lookup "message_id" = some (.str "m1") ∧
    exampleEmitted.lookup "role" = some (.str "user") ∧
    exampleEmitted.lookup "create_time" = some (.num 100) ∧
    exampleEmitted.lookup "update_time" = some .null :=
  C6_metadata_fields exampleConversation exampleNode exampleMessage
    (.obj [("role", .str "user")]) "n1" exampleEmitted
    (.str "T") (.str "m1") (.str "user") (.num 100) .null
    rfl rfl rfl rfl rfl rfl rfl rfl

/-! Claim C5. -/

/-- Helper: with enough fuel, the batches flatten back to the original list. -/
theorem toBatchesAux_flatten (fuel n : Nat) (l : List α) (h : l.length ≤ fuel) :
    (toBatchesAux fuel n l).flatten = l := by
  induction fuel generalizing l with
  | zero =>
    cases l with
    | nil => rfl
    | cons x xs => simp at h
  | succ fuel ih =>
    cases l with
    | nil => rfl
    | cons x xs =>
      simp only [toBatchesAux]
      by_cases hn : n = 0
      · simp [hn]
      · simp only [hn, if_false, List.flatten_cons]
        rw [ih]
        · exact List.take_append_drop n (x :: xs)
        · rw [List.length_drop]
          simp only [List.length_cons] at h ⊢
          omega

/-- Helper: the internally chunked encode equals the plain per-text map. -/
theorem model_encode_eq_map (embed_fn : JValue → List ℚ) (n : Nat)
    (texts : List JValue) :
    model_encode embed_fn n texts = texts.map embed_fn := by
  unfold model_encode toBatches
  rw [← List.map_flatten]
  rw [toBatchesAux_flatten _ _ _ (le_refl _)]

/-- C5: the records built by the embedding stage do not depend on the
configured batch size, and a successful run yields the input messages in
order, each extended with the serialization of the embedding of its own
text. -/
theorem C5_batch_size_invariance (fstr : ℚ → String)
    (embed_fn : JValue → List ℚ) (b1 b2 : Nat) (msgs : List PyDict) :
    load_conversations_records fstr embed_fn b1 msgs
      = load_conversations_records fstr embed_fn b2 msgs ∧
    (∀ texts, pyListComp (fun m => pyGetItem m "text") msgs = .ok texts →
      load_conversations_records fstr embed_fn b1 msgs
        = .ok ((msgs.zip (texts.map embed_fn)).map (fun p =>
            pyDictSet p.1 "embedding"
              (.str (serialize_embedding fstr p.2))))) := by
  constructor
  · unfold load_conversations_records
    simp only [model_encode_eq_map]
  · intro texts htexts
    unfold load_conversations_records
    cases hmt : msgs.isEmpty with
    | true =>
      have : msgs = [] := by simpa using hmt
      subst this
      have : texts = [] := by
        simpa [pyListComp] using htexts.symm
      subst this
      simp
    | false =>
      simp only [if_false, Bool.false_eq_true, htexts, model_encode_eq_map]

/-- C5 witness: batch sizes one and thirty-two agree on the worked example
record, and the successful run is the zip with the per-text embeddings. -/
theorem C5_batch_witness :
    load_conversations_records (fun _ => "0.5") (fun _ => [(1 : ℚ)/2]) 1
        [exampleEmitted]
      = load_conversations_records (fun _ => "0.5") (fun _ => [(1 : ℚ)/2]) 32
        [exampleEmitted] ∧
    load_conversations_records (fun _ => "0.5") (fun _ => [(1 : ℚ)/2]) 1
        [exampleEmitted]
      = .ok (([exampleEmitted].zip
            ([JValue.str "Hi there"].map (fun _ => [(1 : ℚ)/2]))).map (fun p =>
          pyDictSet p.1 "embedding"
            (.str (serialize_embedding (fun _ => "0.5") p.2)))) :=
  ⟨(C5_batch_size_invariance (fun _ => "0.5") (fun _ => [(1 : ℚ)/2]) 1 32
      [exampleEmitted]).1,
   (C5_batch_size_invariance (fun _ => "0.5") (fun _ => [(1 : ℚ)/2]) 1 32
      [exampleEmitted]).2 [JValue.str "Hi there"] rfl⟩

/-! Claim C8. -/

/-- C8: the serialized wire form is exactly an opening bracket, the component
renderings joined by single commas, and a closing bracket; and whenever no
component rendering contains whitespace, the whole serialized form contains
no whitespace either. -/
theorem C8_serialized_wire_form (fstr : ℚ → String) (e : List ℚ)
    (hf : ∀ x ∈ e, ∀ c ∈ (fstr x).data, ¬ c.isWhitespace) :
    serialize_embedding fstr e = "[" ++ pyJoin "," (e.map fstr) ++ "]" ∧
    ∀ c ∈ (serialize_embedding fstr e).data, ¬ c.isWhitespace := by
  refine ⟨rfl, ?_⟩
  intro c hc
  simp only [serialize_embedding, String.data_append, List.mem_append] at hc
  rcases hc with (hc | hc) | hc
  · have : c = '[' := by simpa [show ("[" : String).data = ['['] from rfl] using hc
    subst this; decide
  · rcases mem_data_pyJoin hc with hsep | ⟨s, hsmem, hcs⟩
    · have : c = ',' := by
        simpa [show ("," : String).data = [','] from rfl] using hsep
      subst this; decide
    · obtain ⟨x, hx, hxs⟩ := List.mem_map.mp hsmem
      exact hf x hx c (by rw [hxs]; exact hcs)
  · have : c = ']' := by simpa [show ("]" : String).data = [']'] from rfl] using hc
    subst this; decide

/-- C8 witness: the wire-form law at a one-component vector whose rendering
is the string 0.5. -/
theorem C8_wire_witness :
    (serialize_embedding (fun _ => "0.5") [(1 : ℚ)/2]
      = "[" ++ pyJoin "," ([(1 : ℚ)/2].map (fun _ => "0.5")) ++ "]") ∧
    ∀ c ∈ (serialize_embedding (fun _ => "0.5") [(1 : ℚ)/2]).data,
      ¬ c.isWhitespace :=
  C8_serialized_wire_form (fun _ => "0.5") [(1 : ℚ)/2]
    (fun x _ => (by decide : ∀ c ∈ ("0.5" : String).data, ¬ c.isWhitespace))

/-! Claim C9. -/

/-- Helper: replacing the bindings of one key leaves other lookups unchanged. -/
theorem lookup_map_set_ne (d : PyDict) (k k2 : String) (v : JValue)
    (h : k2 ≠ k) :
    List.lookup k2 (d.map (fun p => if p.1 == k then (k, v) else p))
      = List.lookup k2 d := by
  induction d with
  | nil => rfl
  | cons q rest ih =>
    obtain ⟨kq, vq⟩ := q
    by_cases hkq : kq = k
    · subst hkq
      simp only [List.map_cons, beq_self_eq_true, if_true]
      simp only [List.lookup, show (k2 == kq) = false from by simpa using h]
      exact ih
    · simp only [List.map_cons]
      rw [if_neg (by simpa using hkq)]
      simp only [List.lookup]
      cases hc : (k2 == kq)
      · exact ih
      · rfl

/-- Helper: appending a fresh key leaves other lookups unchanged. -/
theorem lookup_append_ne (d : PyDict) (k k2 : String) (v : JValue)
    (h : k2 ≠ k) :
    List.lookup k2 (d ++ [(k, v)]) = List.lookup k2 d := by
  induction d with
  | nil => simp [List.lookup, show (k2 == k) = false from by simpa using h]
  | cons q rest ih =>
    obtain ⟨kq, vq⟩ := q
    simp only [List.cons_append, List.lookup]
    cases hc : (k2 == kq)
    · exact ih
    · rfl

/-- Helper: adding one key leaves every other lookup unchanged. -/
theorem pyDictSet_lookup_ne (d : PyDict) (k k2 : String) (v : JValue)
    (h : k2 ≠ k) : (pyDictSet d k v).lookup k2 = d.lookup k2 := by
  unfold pyDictSet
  by_cases hp : (d.lookup k).isSome
  · simp only [hp, if_true]
    exact lookup_map_set_ne d k k2 v h
  · simp only [hp, if_false, Bool.false_eq_true]
    exact lookup_append_ne d k k2 v h

/-- Helper: replacing the bindings of a present key makes it look up to the
new value. -/
theorem lookup_map_set_self (d : PyDict) (k : String) (v : JValue)
    (h : (d.lookup k).isSome) :
    List.lookup k (d.map (fun p => if p.1 == k then (k, v) else p))
      = some v := by
  induction d with
  | nil => simp [List.lookup] at h
  | cons q rest ih =>
    obtain ⟨kq, vq⟩ := q
    by_cases hkq : kq = k
    · subst hkq
      simp only [List.map_cons, beq_self_eq_true, if_true]
      simp [List.lookup]
    · have h2 : (rest.lookup k).isSome := by
        simpa [List.lookup, show (k == kq) = false from by
          simpa using fun hx => hkq hx.symm] using h
      simp only [List.map_cons]
      rw [if_neg (by simpa using hkq)]
      simp only [List.lookup, show (k == kq) = false from by
        simpa using fun hx => hkq hx.symm]
      exact ih h2

/-- Helper: appending an absent key makes it look up to the new value. -/
theorem lookup_append_self (d : PyDict) (k : String) (v : JValue)
    (h : d.lookup k = none) :
    List.lookup k (d ++ [(k, v)]) = some v := by
  induction d with
  | nil => simp [List.lookup]
  | cons q rest ih =>
    obtain ⟨kq, vq⟩ := q
    simp only [List.lookup] at h
    cases hc : (k == kq) with
    | true => rw [hc] at h; simp at h
    | false =>
      rw [hc] at h
      simp only [List.cons_append, List.lookup, hc]
      exact ih h

/-- Helper: the added key looks up to the added value. -/
theorem pyDictSet_lookup_self (d : PyDict) (k : String) (v : JValue) :
    (pyDictSet d k v).lookup k = some v := by
  unfold pyDictSet
  by_cases hp : (d.lookup k).isSome
  · simp only [hp, if_true]
    exact lookup_map_set_self d k v hp
  · simp only [hp, if_false, Bool.false_eq_true]
    exact lookup_append_self d k v (by
      cases hx : d.lookup k
      · rfl
      · rw [hx] at hp; simp at hp)

/-- C9 counterexample: on the worked example message (with a one-component
embedding rendered as 0.5), the record handed to the storage layer holds the
serialized string under the embedding key and no field of the record holds
any array value at all, so the raw embedding vector is not attached and the
claim as stated fails at this input. -/
theorem C9_counterexample :
    load_conversations_records (fun _ => "0.5") (fun _ => [(1 : ℚ)/2]) 32
        [exampleEmitted]
      = .ok [exampleEmitted ++ [("embedding", .str "[0.5]")]] ∧
    ((exampleEmitted ++ [("embedding", JValue.str "[0.5]")]).map Prod.snd).all
      (fun v => match v with | .arr _ => false | _ => true) = true :=
  ⟨rfl, rfl⟩

/-- C9 (amended): every record handed to the storage layer preserves all
original message fields unchanged (any key other than embedding looks up to
its original value) and additionally carries the serialized textual form of
the embedding of its own text under the embedding key; the raw vector itself
is not attached to the record. -/
theorem C9_record_frame (fstr : ℚ → String) (embed_fn : JValue → List ℚ)
    (bs : Nat) (msgs recs : List PyDict) (texts : List JValue)
    (htexts : pyListComp (fun m => pyGetItem m "text") msgs = .ok texts)
    (hok : load_conversations_records fstr embed_fn bs msgs = .ok recs) :
    recs = (msgs.zip (texts.map embed_fn)).map (fun p =>
      pyDictSet p.1 "embedding" (.str (serialize_embedding fstr p.2))) ∧
    ∀ p ∈ msgs.zip (texts.map embed_fn),
      (∀ k, k ≠ "embedding" →
        (pyDictSet p.1 "embedding"
          (.str (serialize_embedding fstr p.2))).lookup k = p.1.lookup k) ∧
      (pyDictSet p.1 "embedding"
          (.str (serialize_embedding fstr p.2))).lookup "embedding"
        = some (.str (serialize_embedding fstr p.2)) := by
  constructor
  · unfold load_conversations_records at hok
    cases hmt : msgs.isEmpty with
    | true =>
      have hmsgs : msgs = [] := by simpa using hmt
      subst hmsgs
      simp only [List.isEmpty_nil, if_true, Except.ok.injEq] at hok
      subst hok
      rfl
    | false =>
      rw [if_neg (by simp [hmt])] at hok
      rw [htexts] at hok
      simp only [model_encode_eq_map, Except.ok.injEq] at hok
      exact hok.symm
  · intro p _
    exact ⟨fun k hk => pyDictSet_lookup_ne p.1 "embedding" k _ hk,
      pyDictSet_lookup_self p.1 "embedding" _⟩

/-- C9 witness: the amended frame law applied at the worked example. -/
theorem C9_frame_witness :
    ([exampleEmitted ++ [("embedding", JValue.str "[0.5]")]]
      = ([exampleEmitted].zip
          ([JValue.str "Hi there"].map (fun _ => [(1 : ℚ)/2]))).map
          (fun p => pyDictSet p.1 "embedding"
            (.str (serialize_embedding (fun _ => "0.5") p.2)))) ∧
    ∀ p ∈ [exampleEmitted].zip
        ([JValue.str "Hi there"].map (fun _ => [(1 : ℚ)/2])),
      (∀ k, k ≠ "embedding" →
        (pyDictSet p.1 "embedding"
          (.str (serialize_embedding (fun _ => "0.5") p.2))).lookup k
          = p.1.lookup k) ∧
      (pyDictSet p.1 "embedding"
          (.str (serialize_embedding (fun _ => "0.5") p.2))).lookup "embedding"
        = some (.str (serialize_embedding (fun _ => "0.5") p.2)) :=
  C9_record_frame (fun _ => "0.5") (fun _ => [(1 : ℚ)/2]) 32 [exampleEmitted]
    [exampleEmitted ++ [("embedding", JValue.str "[0.5]")]]
    [JValue.str "Hi there"] rfl rfl

/-! Claim C1. -/

/-- Helper: the subquery where-chain is one filter by the combined pass
condition. -/
theorem filt_pipeline_eq (rf cf : Option String) (rows : List Row) :
    whereConv cf (whereRole rf (rows.filter (fun r => r.embedding.isSome)))
      = rows.filter (rowPasses rf cf) := by
  unfold whereConv whereRole rowPasses
  cases hrf : optTruthy rf <;> cases hcf : optTruthy cf <;>
    simp only [if_true, if_false, Bool.false_eq_true, Bool.true_eq_false,
      List.filter_filter] <;>
    refine List.filter_congr ?_ <;>
    intro a _ <;>
    cases ha : a.embedding.isSome <;>
    cases hb : (some a.role == rf) <;>
    cases hc : (some a.conversation_id == cf) <;>
    simp [ha, hb, hc]

/-- Helper: a leading subquery entry whose key matches no outer row drops out
of the join. -/
theorem joinRows_cons_sub_ne (rows : List Row) (m0 : String) (s0 : ℚ)
    (sub : List (String × ℚ)) (h : ∀ r ∈ rows, r.message_id ≠ m0) :
    joinRows rows ((m0, s0) :: sub) = joinRows rows sub := by
  unfold joinRows
  induction rows with
  | nil => rfl
  | cons x rest ih =>
    simp only [List.flatMap_cons]
    rw [ih (fun r hr => h r (by simp [hr]))]
    congr 1
    simp only [List.filter_cons]
    rw [if_neg (by
      have := h x (by simp)
      simpa using fun hx => this hx.symm)]

/-- Helper: one unfolding step of the join along the outer table. -/
theorem joinRows_cons (x : Row) (rest : List Row) (sub : List (String × ℚ)) :
    joinRows (x :: rest) sub
      = (sub.filter (fun p => p.1 == x.message_id)).map (fun p => (x, p.2))
        ++ joinRows rest sub := by
  unfold joinRows
  simp [List.flatMap_cons]

/-- Helper: with pairwise distinct message identifiers, joining the table
with the projected subquery recovers exactly the filtered rows paired with
their own scores, in table order. -/
theorem joinRows_scored (g : Row → ℚ) (rows : List Row) (P : Row → Bool)
    (hnd : (rows.map Row.message_id).Nodup) :
    joinRows rows ((rows.filter P).map (fun r => (r.message_id, g r)))
      = (rows.filter P).map (fun r => (r, g r)) := by
  induction rows with
  | nil => rfl
  | cons x rest ih =>
    simp only [List.map_cons, List.nodup_cons] at hnd
    have hx_notin : x.message_id ∉ rest.map Row.message_id := hnd.1
    have hkeys : ∀ p ∈ (rest.filter P).map (fun r => (r.message_id, g r)),
        p.1 ≠ x.message_id := by
      intro p hp
      obtain ⟨r, hr, hrp⟩ := List.mem_map.mp hp
      have hrmem : r ∈ rest := List.mem_of_mem_filter hr
      intro hcon
      exact hx_notin (by
        rw [← hcon, ← hrp]
        exact List.mem_map.mpr ⟨r, hrmem, rfl⟩)
    have hrest_ne : ∀ r ∈ rest, r.message_id ≠ x.message_id := by
      intro r hr hcon
      exact hx_notin (by rw [← hcon]; exact List.mem_map.mpr ⟨r, hr, rfl⟩)
    by_cases hPx : P x
    · simp only [List.filter_cons, hPx, if_true, List.map_cons]
      rw [joinRows_cons]
      have hhead : (((x.message_id, g x) :: (rest.filter P).map
            (fun r => (r.message_id, g r))).filter
            (fun p => p.1 == x.message_id)) = [(x.message_id, g x)] := by
        simp only [List.filter_cons, beq_self_eq_true, if_true]
        rw [List.filter_eq_nil_iff.mpr (by
          intro p hp
          simpa using hkeys p hp)]
      rw [hhead]
      have hrestjoin : joinRows rest ((x.message_id, g x) :: (rest.filter P).map
            (fun r => (r.message_id, g r)))
          = joinRows rest ((rest.filter P).map (fun r => (r.message_id, g r))) :=
        joinRows_cons_sub_ne rest x.message_id (g x) _ hrest_ne
      rw [hrestjoin, ih hnd.2]
      rfl
    · simp only [List.filter_cons, hPx, if_false, Bool.false_eq_true]
      rw [joinRows_cons]
      rw [List.filter_eq_nil_iff.mpr (by
        intro p hp
        simpa using hkeys p hp)]
      simp only [List.map_nil, List.nil_append]
      exact ih hnd.2

/-- Helper: membership in the insertion step. -/
theorem mem_insertDesc (x z : Row × ℚ) (l : List (Row × ℚ)) :
    z ∈ insertDesc x l ↔ z = x ∨ z ∈ l := by
  induction l with
  | nil => simp [insertDesc]
  | cons y ys ih =>
    simp only [insertDesc]
    by_cases h : y.2 < x.2
    · rw [if_pos h]
      simp [List.mem_cons, or_left_comm, or_comm]
    · rw [if_neg h]
      simp only [List.mem_cons, ih]
      tauto

/-- Helper: the insertion step permutes. -/
theorem insertDesc_perm (x : Row × ℚ) (l : List (Row × ℚ)) :
    (insertDesc x l).Perm (x :: l) := by
  induction l with
  | nil => simp [insertDesc]
  | cons y ys ih =>
    simp only [insertDesc]
    by_cases h : y.2 < x.2
    · rw [if_pos h]
    · rw [if_neg h]
      exact (ih.cons y).trans (List.Perm.swap x y ys)

/-- Helper: the descending sort is a permutation of its input. -/
theorem sortDesc_perm (l : List (Row × ℚ)) : (sortDesc l).Perm l := by
  induction l with
  | nil => simp [sortDesc]
  | cons x xs ih =>
    simp only [sortDesc]
    exact (insertDesc_perm x (sortDesc xs)).trans (ih.cons x)

/-- Helper: inserting into a descending list keeps it descending. -/
theorem insertDesc_sorted (x : Row × ℚ) (l : List (Row × ℚ))
    (h : l.Sorted (fun a b => b.2 ≤ a.2)) :
    (insertDesc x l).Sorted (fun a b => b.2 ≤ a.2) := by
  induction l with
  | nil => simp [insertDesc]
  | cons y ys ih =>
    rw [List.sorted_cons] at h
    simp only [insertDesc]
    by_cases hlt : y.2 < x.2
    · rw [if_pos hlt]
      rw [List.sorted_cons]
      refine ⟨?_, List.sorted_cons.mpr h⟩
      intro b hb
      rcases List.mem_cons.mp hb with rfl | hb
      · exact le_of_lt hlt
      · exact le_trans (h.1 b hb) (le_of_lt hlt)
    · rw [if_neg hlt]
      rw [List.sorted_cons]
      refine ⟨?_, ih h.2⟩
      intro b hb
      rcases (mem_insertDesc x b ys).mp hb with rfl | hb
      · exact le_of_not_lt hlt
      · exact h.1 b hb

/-- Helper: the sort produces a descending list. -/
theorem sortDesc_sorted (l : List (Row × ℚ)) :
    (sortDesc l).Sorted (fun a b => b.2 ≤ a.2) := by
  induction l with
  | nil => simp [sortDesc]
  | cons x xs ih => exact insertDesc_sorted x (sortDesc xs) ih

/-- C1: with a recognized metric dispatched to its pgvector similarity
expression and pairwise distinct primary keys, the similarity search returns
exactly the stored rows that pass the optional filters and have a non-null
embedding, scored by the selected expression (cosine: one minus
cosine_distance; l2: negated l2_distance; inner_product: max_inner_product),
kept exactly when the score is at least the caller-supplied threshold, sorted
by descending score, and truncated to at most limit rows; every returned row
has a non-null stored embedding and a score at least the threshold, and no
such row is dropped other than by the truncation. -/
theorem C1_similarity_ranking (ops : DistanceOps) (rows : List Row)
    (q : List ℚ) (limit : Nat) (thr : ℚ) (rf cf : Option String)
    (metric : String) (simf : List ℚ → ℚ)
    (hsim : similarity_fn ops metric q = .ok simf)
    (hnodup : (rows.map Row.message_id).Nodup) :
    (metric = "cosine" → ∀ e, simf e = 1 - ops.cosine_distance e q) ∧
    (metric = "l2" → ∀ e, simf e = -(ops.l2_distance e q)) ∧
    (metric = "inner_product" → ∀ e, simf e = ops.max_inner_product e q) ∧
    ∃ kept : List (Row × ℚ),
      kept = ((rows.filter (rowPasses rf cf)).map
          (fun r => (r, simf (r.embedding.getD [])))).filter
          (fun p => thr ≤ p.2) ∧
      search_sync ops rows q limit thr rf cf metric
        = .ok ((sortDesc kept).take limit) ∧
      (sortDesc kept).Perm kept ∧
      ((sortDesc kept).take limit).Sorted (fun a b => b.2 ≤ a.2) ∧
      ((sortDesc kept).take limit).length ≤ limit ∧
      ∀ p ∈ (sortDesc kept).take limit,
        p.1.embedding ≠ none ∧ thr ≤ p.2 := by
  refine ⟨?_, ?_, ?_, ?_⟩
  · intro h
    subst h
    simp only [similarity_fn, beq_self_eq_true, if_true, Except.ok.injEq]
      at hsim
    intro e
    rw [← hsim]
  · intro h
    subst h
    simp only [similarity_fn, Except.ok.injEq, show (("l2" : String) == "cosine")
      = false from by decide, if_false, beq_self_eq_true, if_true,
      Bool.false_eq_true] at hsim
    intro e
    rw [← hsim]
  · intro h
    subst h
    simp only [similarity_fn, Except.ok.injEq,
      show (("inner_product" : String) == "cosine") = false from by decide,
      show (("inner_product" : String) == "l2") = false from by decide,
      if_false, beq_self_eq_true, if_true, Bool.false_eq_true] at hsim
    intro e
    rw [← hsim]
  · refine ⟨((rows.filter (rowPasses rf cf)).map
        (fun r => (r, simf (r.embedding.getD [])))).filter
        (fun p => thr ≤ p.2), rfl, ?_, ?_, ?_, ?_, ?_⟩
    · unfold search_sync
      rw [hsim]
      dsimp only
      unfold subqueryRows
      rw [filt_pipeline_eq]
      rw [joinRows_scored (fun r => simf (r.embedding.getD [])) rows
        (rowPasses rf cf) hnodup]
    · exact sortDesc_perm _
    · exact List.Pairwise.sublist (List.take_sublist limit _) (sortDesc_sorted _)
    · exact List.length_take_le limit _
    · intro p hp
      have hp2 : p ∈ sortDesc (((rows.filter (rowPasses rf cf)).map
          (fun r => (r, simf (r.embedding.getD [])))).filter
          (fun p => thr ≤ p.2)) := List.mem_of_mem_take hp
      have hp3 := (sortDesc_perm _).mem_iff.mp hp2
      have hthr : thr ≤ p.2 := by
        have := List.of_mem_filter hp3
        simpa using this
      have hp4 := List.mem_of_mem_filter hp3
      obtain ⟨r, hr, hrp⟩ := List.mem_map.mp hp4
      have hpass := List.of_mem_filter hr
      have hemb : r.embedding.isSome := by
        unfold rowPasses at hpass
        simp only [Bool.and_eq_true] at hpass
        exact hpass.1.1
      refine ⟨?_, hthr⟩
      rw [← hrp]
      simp only []
      cases hx : r.embedding
      · rw [hx] at hemb; simp at hemb
      · simp

/-- C1 witness: the ranking law at one stored row, cosine metric, zero-valued
distance operators, empty query embedding, threshold zero and limit ten. -/
theorem C1_ranking_witness :
    (("cosine" : String) = "cosine" →
      ∀ e, (fun e => 1 - zeroOps.cosine_distance e ([] : List ℚ)) e
        = 1 - zeroOps.cosine_distance e []) ∧
    (("cosine" : String) = "l2" →
      ∀ e, (fun e => 1 - zeroOps.cosine_distance e ([] : List ℚ)) e
        = -(zeroOps.l2_distance e [])) ∧
    (("cosine" : String) = "inner_product" →
      ∀ e, (fun e => 1 - zeroOps.cosine_distance e ([] : List ℚ)) e
        = zeroOps.max_inner_product e []) ∧
    ∃ kept : List (Row × ℚ),
      kept = (([exampleRow].filter (rowPasses none none)).map
          (fun r => (r, (fun e => 1 - zeroOps.cosine_distance e ([] : List ℚ))
            (r.embedding.getD [])))).filter (fun p => (0 : ℚ) ≤ p.2) ∧
      search_sync zeroOps [exampleRow] [] 10 0 none none "cosine"
        = .ok ((sortDesc kept).take 10) ∧
      (sortDesc kept).Perm kept ∧
      ((sortDesc kept).take 10).Sorted (fun a b => b.2 ≤ a.2) ∧
      ((sortDesc kept).take 10).length ≤ 10 ∧
      ∀ p ∈ (sortDesc kept).take 10, p.1.embedding ≠ none ∧ (0 : ℚ) ≤ p.2 :=
  C1_similarity_ranking zeroOps [exampleRow] [] 10 0 none none "cosine"
    (fun e => 1 - zeroOps.cosine_distance e []) rfl (by simp)

/-! Claim C7. -/

/-- C7: the constructed search fails, with the unknown-metric error and no
partial result, exactly when the metric selector is none of cosine, l2 and
inner_product; on the three recognized selectors it returns a result list. -/
theorem C7_unknown_metric_fatal (ops : DistanceOps) (rows : List Row)
    (q : List ℚ) (limit : Nat) (thr : ℚ) (rf cf : Option String)
    (metric : String) :
    ((metric ≠ "cosine" ∧ metric ≠ "l2" ∧ metric ≠ "inner_product") ↔
      search_sync ops rows q limit thr rf cf metric
        = .error ("Unknown distance metric: " ++ metric)) ∧
    ((metric = "cosine" ∨ metric = "l2" ∨ metric = "inner_product") →
      ∃ out, search_sync ops rows q limit thr rf cf metric = .ok out) := by
  constructor
  · constructor
    · rintro ⟨h1, h2, h3⟩
      unfold search_sync similarity_fn
      rw [if_neg (by simpa using h1), if_neg (by simpa using h2),
        if_neg (by simpa using h3)]
    · intro h
      refine ⟨?_, ?_, ?_⟩ <;> intro heq <;> subst heq <;>
        simp [search_sync, similarity_fn] at h
  · rintro (h | h | h) <;> subst h <;> exact ⟨_, rfl⟩

/-- C7 witness: a recognized selector returns a result and an unrecognized
selector fails with the unknown-metric error. -/
theorem C7_metric_witness :
    (∃ out, search_sync zeroOps [] [] 10 0 none none "cosine" = .ok out) ∧
    search_sync zeroOps [] [] 10 0 none none "euclidean"
      = .error ("Unknown distance metric: " ++ "euclidean") :=
  ⟨(C7_unknown_metric_fatal zeroOps [] [] 10 0 none none "cosine").2
      (Or.inl rfl),
   (C7_unknown_metric_fatal zeroOps [] [] 10 0 none none "euclidean").1.mp
      (by refine ⟨?_, ?_, ?_⟩ <;> decide)⟩

/-! Claim C10. -/

/-- C10: for equal stored rows and equal arguments, the synchronous and the
asynchronous search construct the same ranking query and return the same
result list with the same attached similarity scores. -/
theorem C10_sync_async_agree (ops : DistanceOps) (rows : List Row)
    (q : List ℚ) (limit : Nat) (thr : ℚ) (rf cf : Option String)
    (metric : String) :
    search_sync ops rows q limit thr rf cf metric
      = search_async ops rows q limit thr rf cf metric := rfl
